import Mathlib

set_option maxRecDepth 100000
set_option maxHeartbeats 4000000

/-!
A shallow embedding of the PDF watermark utility `src/utils/pdfWatermark.js`
(color parsing, watermark position generation, and the orchestration in
`addWatermarkToPDF`), together with theorems settling the specification's
claims about it.

Modelling conventions:
* JavaScript numbers are modelled by `JSNum`: an exact rational, NaN, or
  a signed infinity.  Float rounding and overflow are not modelled; every
  claim under scrutiny is about values that are exact in both models.
* Strings are Lean `String` / `List Char`; the characters involved are all
  in the Basic Multilingual Plane, where JavaScript code units and Lean
  code points agree.
* The external collaborators (pdf-lib, file reader, file saver, font fetch)
  are parameters of the orchestrator model (`Env`); their outcomes are
  injected, and the draw / download calls made by the code are collected
  into an observable trace.
-/

/-- A JavaScript number: NaN, +Infinity, -Infinity, or a finite value
(modelled as an exact rational). -/
inductive JSNum where
  | nan : JSNum
  | inf : JSNum
  | negInf : JSNum
  | num (q : ℚ) : JSNum
deriving DecidableEq, Repr

/-- JavaScript `Math.min` on finite values. -/
def jsMin (a b : ℚ) : ℚ := if a ≤ b then a else b

/-- JavaScript `Math.max` on finite values. -/
def jsMax (a b : ℚ) : ℚ := if a ≤ b then b else a

/-- The clamp `Math.max(0, Math.min(1, x))` on JavaScript numbers.
`Math.min(1, NaN) = NaN` and `Math.max(0, NaN) = NaN`, so NaN passes
through the clamp unchanged; the infinities saturate. -/
def clampJS : JSNum → JSNum
  | .nan => .nan
  | .inf => .num 1
  | .negInf => .num 0
  | .num q => .num (jsMax 0 (jsMin 1 q))

/-- JavaScript whitespace characters (the set recognised by `parseInt`,
`parseFloat` and string-to-number conversion). -/
def jsWhitespace (c : Char) : Bool :=
  decide (c.toNat = 32 ∨ c.toNat = 9 ∨ c.toNat = 10 ∨ c.toNat = 11 ∨
    c.toNat = 12 ∨ c.toNat = 13 ∨ c.toNat = 160 ∨ c.toNat = 0xFEFF ∨
    c.toNat = 0x2028 ∨ c.toNat = 0x2029)

/-- Value of a decimal digit character. -/
def decDigitVal (c : Char) : Option ℕ :=
  if 48 ≤ c.toNat ∧ c.toNat ≤ 57 then some (c.toNat - 48) else none

/-- Value of a hexadecimal digit character (`0-9a-fA-F`). -/
def hexDigitVal (c : Char) : Option ℕ :=
  if 48 ≤ c.toNat ∧ c.toNat ≤ 57 then some (c.toNat - 48)
  else if 97 ≤ c.toNat ∧ c.toNat ≤ 102 then some (c.toNat - 87)
  else if 65 ≤ c.toNat ∧ c.toNat ≤ 70 then some (c.toNat - 55)
  else none

/-- Value of an octal digit character. -/
def octDigitVal (c : Char) : Option ℕ :=
  if 48 ≤ c.toNat ∧ c.toNat ≤ 55 then some (c.toNat - 48) else none

/-- Value of a binary digit character. -/
def binDigitVal (c : Char) : Option ℕ :=
  if 48 ≤ c.toNat ∧ c.toNat ≤ 49 then some (c.toNat - 48) else none

/-- Consume the longest run of digits (per `digitVal`) at the head of the
list in base `base`.  Returns `(value, number of digits, rest)`. -/
def takeDigits (digitVal : Char → Option ℕ) (base : ℕ) :
    List Char → ℕ × ℕ × List Char
  | [] => (0, 0, [])
  | c :: t =>
    match digitVal c with
    | some d =>
      let r := takeDigits digitVal base t
      (d * base ^ r.2.1 + r.1, r.2.1 + 1, r.2.2)
    | none => (0, 0, c :: t)

/-- Drop JavaScript whitespace from both ends of a character list. -/
def trimWs (cs : List Char) : List Char :=
  ((cs.dropWhile jsWhitespace).reverse.dropWhile jsWhitespace).reverse

/-- Parse an exponent suffix (`e`/`E`, optional sign, digits) that must
consume the whole remaining input; used by full-string number conversion. -/
def parseExpTail (q : ℚ) : List Char → Option ℚ
  | [] => some q
  | c :: t =>
    if c = 'e' ∨ c = 'E' then
      let st : ℤ × List Char :=
        match t with
        | '+' :: u => (1, u)
        | '-' :: u => (-1, u)
        | u => (1, u)
      let r := takeDigits decDigitVal 10 st.2
      if r.2.1 = 0 ∨ r.2.2 ≠ [] then none
      else some (if st.1 = 1 then q * 10 ^ r.1 else q / 10 ^ r.1)
    else none

/-- Parse an unsigned decimal literal (`d+[.d*][exp]` or `.d+[exp]`) that
must consume the whole input; `none` models NaN. -/
def parseDecFull (cs : List Char) : Option ℚ :=
  let ri := takeDigits decDigitVal 10 cs
  match ri.2.2 with
  | '.' :: r2 =>
    let rf := takeDigits decDigitVal 10 r2
    if ri.2.1 = 0 ∧ rf.2.1 = 0 then none
    else parseExpTail ((ri.1 : ℚ) + (rf.1 : ℚ) / 10 ^ rf.2.1) rf.2.2
  | _ => if ri.2.1 = 0 then none else parseExpTail (ri.1 : ℚ) ri.2.2

/-- Parse a full non-decimal integer body (digits only, whole input). -/
def parseRadixFull (digitVal : Char → Option ℕ) (base : ℕ)
    (cs : List Char) : Option ℕ :=
  let r := takeDigits digitVal base cs
  if r.2.1 = 0 ∨ r.2.2 ≠ [] then none else some r.1

/-- Signed decimal literal or `Infinity`, whole input (helper for
string-to-number conversion). -/
def decOrInf (neg : Bool) (r : List Char) : JSNum :=
  if r = ("Infinity").data then (if neg then .negInf else .inf)
  else
    match parseDecFull r with
    | some q => .num (if neg then -q else q)
    | none => .nan

/-- ECMAScript ToNumber on a string (the `Number(...)` conversion used by
`split(',').map(Number)`): trims whitespace, empty string is 0, accepts
signed decimal literals, `Infinity`, and unsigned `0x`/`0o`/`0b` literals;
anything else is NaN. -/
def toNumberList (cs : List Char) : JSNum :=
  let t := trimWs cs
  match t with
  | [] => .num 0
  | '0' :: c :: rest =>
    if c = 'x' ∨ c = 'X' then
      match parseRadixFull hexDigitVal 16 rest with
      | some v => .num v
      | none => .nan
    else if c = 'o' ∨ c = 'O' then
      match parseRadixFull octDigitVal 8 rest with
      | some v => .num v
      | none => .nan
    else if c = 'b' ∨ c = 'B' then
      match parseRadixFull binDigitVal 2 rest with
      | some v => .num v
      | none => .nan
    else
      match t with
      | '+' :: r => decOrInf false r
      | '-' :: r => decOrInf true r
      | r => decOrInf false r
  | '+' :: r => decOrInf false r
  | '-' :: r => decOrInf true r
  | r => decOrInf false r

/-- ECMAScript `parseFloat` on a string: skips leading whitespace, parses
the longest signed decimal-literal (or `Infinity`) prefix, ignores any
trailing characters; NaN if no digits are found. -/
def parseFloatList (cs : List Char) : JSNum :=
  let t := cs.dropWhile jsWhitespace
  let sr : Bool × List Char :=
    match t with
    | '+' :: u => (false, u)
    | '-' :: u => (true, u)
    | u => (false, u)
  let neg := sr.1
  let r := sr.2
  if r.take 8 = ("Infinity").data then (if neg then .negInf else .inf)
  else
    let ri := takeDigits decDigitVal 10 r
    let fr : ℕ × ℕ × List Char :=
      match ri.2.2 with
      | '.' :: rr => takeDigits decDigitVal 10 rr
      | _ => (0, 0, ri.2.2)
    if ri.2.1 = 0 ∧ fr.2.1 = 0 then .nan
    else
      let mant : ℚ := (ri.1 : ℚ) + (fr.1 : ℚ) / 10 ^ fr.2.1
      let expq : ℚ :=
        match fr.2.2 with
        | c :: t2 =>
          if c = 'e' ∨ c = 'E' then
            let st : ℤ × List Char :=
              match t2 with
              | '+' :: u => (1, u)
              | '-' :: u => (-1, u)
              | u => (1, u)
            let re := takeDigits decDigitVal 10 st.2
            if re.2.1 = 0 then 1
            else (if st.1 = 1 then (10 : ℚ) ^ re.1 else 1 / 10 ^ re.1)
          else 1
        | [] => 1
      .num ((if neg then -mant else mant) * expq)

/-- ECMAScript `parseInt` with no radix argument: skips whitespace, takes
an optional sign, switches to hexadecimal on a `0x`/`0X` prefix, otherwise
parses the longest run of decimal digits; `none` models NaN. -/
def parseIntList (cs : List Char) : Option ℤ :=
  let t := cs.dropWhile jsWhitespace
  let sr : Bool × List Char :=
    match t with
    | '+' :: u => (false, u)
    | '-' :: u => (true, u)
    | u => (false, u)
  let body : List Char :=
    match sr.2 with
    | '0' :: c :: rest => if c = 'x' ∨ c = 'X' then rest else sr.2
    | _ => sr.2
  let isHex : Bool :=
    match sr.2 with
    | '0' :: c :: _ => c = 'x' ∨ c = 'X'
    | _ => false
  let r := if isHex then takeDigits hexDigitVal 16 body
    else takeDigits decDigitVal 10 body
  if r.2.1 = 0 then none
  else some (if sr.1 then -(r.1 : ℤ) else (r.1 : ℤ))

/-- Split an optional leading sign off a character list; `true` means a
leading `-`. -/
def splitSign (cs : List Char) : Bool × List Char :=
  match cs with
  | [] => (false, [])
  | c :: t =>
    if c = '+' then (false, t)
    else if c = '-' then (true, t)
    else (false, c :: t)

/-- Strip a leading `0x`/`0X` prefix if present. -/
def strip0x (cs : List Char) : List Char :=
  match cs with
  | c0 :: c1 :: rest =>
    if c0 = '0' ∧ (c1 = 'x' ∨ c1 = 'X') then rest else c0 :: c1 :: rest
  | _ => cs

/-- ECMAScript `parseInt(s, 16)`: skips whitespace, optional sign,
optional `0x`/`0X` prefix, then the longest run of hex digits; `none`
models NaN. -/
def parseIntHexList (cs : List Char) : Option ℤ :=
  let sr := splitSign (cs.dropWhile jsWhitespace)
  let r := takeDigits hexDigitVal 16 (strip0x sr.2)
  if r.2.1 = 0 then none
  else some (if sr.1 then -(r.1 : ℤ) else (r.1 : ℤ))

/-- The channel value `parseInt(pair, 16) / 255` for a two-character slice of the hex color
string; NaN (from invalid hex digits) divides to NaN. -/
def hexPairChannel (a b : Char) : JSNum :=
  match parseIntHexList [a, b] with
  | some z => .num ((z : ℚ) / 255)
  | none => .nan

/-- JavaScript `String.split(',')` on a character list, mirroring JavaScript:
`"" ↦ [""]`, `"," ↦ ["", ""]`, etc. -/
def splitOnComma : List Char → List (List Char)
  | [] => [[]]
  | c :: t =>
    match splitOnComma t with
    | h :: r => if c = ',' then [] :: h :: r else (c :: h) :: r
    | [] => [[c]]

/-- The body of `parseColor` before the final clamp: the hex branch
(`#` prefix, length-3 and length-6 forms, any other length keeps the
initial black) and the comma-separated-RGB branch (at least three tokens,
all numeric, first three taken and clamped; otherwise black).  The
`try`/`catch` in the source cannot fire on string input, so no exception
path is modelled. -/
def parseColorRawList (cs : List Char) : JSNum × JSNum × JSNum :=
  if cs.head? = some ('#') then
    let hex := cs.drop 1
    if hex.length = 3 then
      (hexPairChannel (hex.getD 0 ' ') (hex.getD 0 ' '),
       hexPairChannel (hex.getD 1 ' ') (hex.getD 1 ' '),
       hexPairChannel (hex.getD 2 ' ') (hex.getD 2 ' '))
    else if hex.length = 6 then
      (hexPairChannel (hex.getD 0 ' ') (hex.getD 1 ' '),
       hexPairChannel (hex.getD 2 ' ') (hex.getD 3 ' '),
       hexPairChannel (hex.getD 4 ' ') (hex.getD 5 ' '))
    else (.num 0, .num 0, .num 0)
  else
    let colorValues := (splitOnComma cs).map toNumberList
    if 3 ≤ colorValues.length ∧ ¬∃ v ∈ colorValues, v = JSNum.nan then
      (clampJS (colorValues.getD 0 (.num 0)),
       clampJS (colorValues.getD 1 (.num 0)),
       clampJS (colorValues.getD 2 (.num 0)))
    else (.num 0, .num 0, .num 0)

/-- The function `parseColor` from `pdfWatermark.js`: branch on the input, then clamp
all three channels to `[0,1]` as a final step.  The resulting triple is
handed to the external `rgb` constructor, which is not modelled. -/
def parseColor (colorStr : String) : JSNum × JSNum × JSNum :=
  let raw := parseColorRawList colorStr.data
  (clampJS raw.1, clampJS raw.2.1, clampJS raw.2.2)


/-! ## Watermark position generation (`generateWatermarkPositions`) -/

/-- A stamp position `{x, y, size}` pushed onto the `positions` array. -/
structure Pos where
  x : ℚ
  y : ℚ
  size : ℚ
deriving DecidableEq, Repr

/-- The duplicate test from the source:
`positions.some(pos => Math.abs(pos.x - x) < 50 && Math.abs(pos.y - y) < 50)`. -/
def isDup (ps : List Pos) (x y : ℚ) : Prop :=
  ∃ p ∈ ps, |p.x - x| < 50 ∧ |p.y - y| < 50

instance (ps : List Pos) (x y : ℚ) : Decidable (isDup ps x y) :=
  List.decidableBEx _ ps

/-- Push `{x, y, size}` unless it is a duplicate of an already accumulated
position (the `if (!isDuplicate) positions.push(...)` step). -/
def addIfNotDup (ps : List Pos) (x y s : ℚ) : List Pos :=
  if isDup ps x y then ps else ps ++ [⟨x, y, s⟩]

/-- Run `addIfNotDup` over a list of candidate `(x, y)` points, all with
size `fs`, in order. -/
def addAll (fs : ℚ) (ps : List Pos) (cands : List (ℚ × ℚ)) : List Pos :=
  cands.foldl (fun acc c => addIfNotDup acc c.1 c.2 fs) ps

/-- The five unconditional base stamps: center (size `fontSize * 1.5`) and
the four corners inset 100 units, in source order. -/
def basePositions (w h fs : ℚ) : List Pos :=
  [⟨w / 2, h / 2, fs * (3 / 2)⟩,
   ⟨100, h - 100, fs⟩,
   ⟨w - 100, h - 100, fs⟩,
   ⟨100, 100, fs⟩,
   ⟨w - 100, 100, fs⟩]

/-- The grid candidates for `density > 1`: for `row, col` in
`[0, gridSize]` (row outer, col inner), the point
`(col * width/gridSize, row * height/gridSize)`. -/
def gridCandidates (w h : ℚ) (gridSize : ℕ) : List (ℚ × ℚ) :=
  (List.range (gridSize + 1)).flatMap fun row =>
    (List.range (gridSize + 1)).map fun col =>
      ((col : ℚ) * (w / (gridSize : ℚ)), (row : ℚ) * (h / (gridSize : ℚ)))

/-- First diagonal pass (`density ≥ 4`): `(width/diagonalCount * i,
height/diagonalCount * i)` for `i` in `[0, diagonalCount]`. -/
def diag1Candidates (w h : ℚ) (dc : ℕ) : List (ℚ × ℚ) :=
  (List.range (dc + 1)).map fun i =>
    (w / (dc : ℚ) * (i : ℚ), h / (dc : ℚ) * (i : ℚ))

/-- Second diagonal pass: `(width/diagonalCount * i,
height - height/diagonalCount * i)`. -/
def diag2Candidates (w h : ℚ) (dc : ℕ) : List (ℚ × ℚ) :=
  (List.range (dc + 1)).map fun i =>
    (w / (dc : ℚ) * (i : ℚ), h - h / (dc : ℚ) * (i : ℚ))

/-- Everything `generateWatermarkPositions` produces before the random
layer: base stamps, then the grid layer for `density > 1` with
`gridSize = max(2, density * 2)`, then the two diagonal passes for
`density ≥ 4` with `diagonalCount = density * 2`, every candidate filtered
by the duplicate check against all positions accumulated so far. -/
def nonRandomPositions (w h fs : ℚ) (density : ℤ) : List Pos :=
  let ps0 := basePositions w h fs
  let ps1 :=
    if 1 < density then addAll fs ps0 (gridCandidates w h (max 2 (density * 2)).toNat)
    else ps0
  if 4 ≤ density then
    let dc := (density * 2).toNat
    addAll fs (addAll fs ps1 (diag1Candidates w h dc)) (diag2Candidates w h dc)
  else ps1

/-- The `density === 5` random layer: 15 stamps at
`(random * width, random * height)` with size
`fontSize * (0.8 + random * 0.4)`, never subjected to the duplicate check.
The source draws three successive `Math.random()` values per stamp; the
stream is injected as `rand`. -/
def randomLayer (w h fs : ℚ) (rand : ℕ → ℚ) : List Pos :=
  (List.range 15).map fun i =>
    ⟨rand (3 * i) * w, rand (3 * i + 1) * h,
     fs * (4 / 5 + rand (3 * i + 2) * (2 / 5))⟩

/-- The function `generateWatermarkPositions(width, height, fontSize, density)` with the
`Math.random()` stream injected: the non-random layers, followed by the
random layer exactly when `density === 5`. -/
def generateWatermarkPositions (w h fs : ℚ) (density : ℤ)
    (rand : ℕ → ℚ) : List Pos :=
  let ps := nonRandomPositions w h fs density
  if density = 5 then ps ++ randomLayer w h fs rand else ps


/-! ## Option normalization and the orchestrator (`addWatermarkToPDF`) -/

/-- A raw JavaScript option value as it arrives from the UI: a string, a
number, `null`, or `undefined`. -/
inductive JSVal where
  | str (s : String) : JSVal
  | num (q : ℚ) : JSVal
  | null : JSVal
  | undefined : JSVal
deriving DecidableEq, Repr

/-- JavaScript truncation toward zero, used to model `parseInt` applied to
a number (via its decimal rendering). -/
def jsTrunc (q : ℚ) : ℤ := if 0 ≤ q then ⌊q⌋ else ⌈q⌉

/-- JavaScript `parseFloat(v)`: numbers round-trip through their decimal rendering,
`null`/`undefined` render as `"null"`/`"undefined"` which parse to NaN,
strings go through the `parseFloat` grammar. -/
def jsParseFloatVal : JSVal → JSNum
  | .num q => .num q
  | .str s => parseFloatList s.data
  | .null => .nan
  | .undefined => .nan

/-- JavaScript `parseInt(v)` (no radix): `parseInt` of a number truncates toward zero
(faithful for values whose default rendering is plain decimal, which
covers all integer inputs below 10^21); `null`/`undefined` parse to NaN;
strings go through the `parseInt` grammar.  `none` models NaN. -/
def jsParseIntVal : JSVal → Option ℤ
  | .num q => some (jsTrunc q)
  | .str s => parseIntList s.data
  | .null => none
  | .undefined => none

/-- The defaulting `x || d` where `x` is a parsed number and `d` a numeric default:
NaN and 0 are falsy and select the default, everything else (including
the infinities) is kept. -/
def jsOrNum (x : JSNum) (d : ℚ) : JSNum :=
  match x with
  | .nan => .num d
  | .num q => if q = 0 then .num d else .num q
  | .inf => .inf
  | .negInf => .negInf

/-- The defaulting `x || d` for an integer-or-NaN value. -/
def jsOrInt (x : Option ℤ) (d : ℤ) : ℤ :=
  match x with
  | some k => if k = 0 then d else k
  | none => d

/-- The raw `watermarkOptions` object handed to `addWatermarkToPDF`.
`text` and `color` are bound to string form fields, so they are modelled
as strings (empty string standing for an absent/falsy value). -/
structure RawOptions where
  text : String
  color : String
  opacity : JSVal
  fontSize : JSVal
  rotation : JSVal
  density : JSVal
deriving DecidableEq, Repr

/-- The normalized options object built at the top of `addWatermarkToPDF`. -/
structure Options where
  text : String
  color : String
  opacity : JSNum
  fontSize : ℤ
  rotation : ℤ
  density : ℤ
deriving DecidableEq, Repr

/-- The normalization step:
`text || '水印文本'`, `color || '#000000'`,
`parseFloat(opacity) || 0.5`, `parseInt(fontSize) || 50`,
`parseInt(rotation) || -45`, `parseInt(density) || 3`. -/
def normalizeOptions (raw : RawOptions) : Options where
  text := if raw.text = "" then "水印文本" else raw.text
  color := if raw.color = "" then "#000000" else raw.color
  opacity := jsOrNum (jsParseFloatVal raw.opacity) (1 / 2)
  fontSize := jsOrInt (jsParseIntVal raw.fontSize) 50
  rotation := jsOrInt (jsParseIntVal raw.rotation) (-45)
  density := jsOrInt (jsParseIntVal raw.density) 3

/-- The test `/[一-龥]/.test(text)` for CJK ideographs. -/
def containsCJK (s : String) : Bool :=
  s.data.any fun c => decide (0x4e00 ≤ c.toNat ∧ c.toNat ≤ 0x9fa5)

/-- The two fonts the orchestrator can end up with. -/
inductive Font where
  | simhei : Font
  | helveticaBold : Font
deriving DecidableEq, Repr

/-- The value returned by `addWatermarkToPDF` on success.  The source
returns the literal `true`; `retBytes` exists so that the contract
"returns the serialized PDF bytes" is expressible. -/
inductive RetVal where
  | retTrue : RetVal
  | retBytes (bytes : ℕ) : RetVal
deriving DecidableEq, Repr

/-- One `page.drawText(...)` call, as observed at the pdf-lib boundary.
`isTest` marks the fixed `'TEST WATERMARK'` stamp added per page when the
fallback font is in use. -/
structure DrawCall where
  page : ℕ
  text : String
  x : ℚ
  y : ℚ
  size : ℚ
  font : Font
  opacity : JSNum
  color : JSNum × JSNum × JSNum
  rotation : ℤ
  isTest : Bool
deriving DecidableEq, Repr

/-- Outcomes of the external collaborators for one invocation:
file read, document load (yielding the page sizes), success of the
simhei fetch-and-embed, document save (yielding the serialized bytes,
abstracted to a tag), and the `Math.random()` stream. -/
structure Env where
  fileName : String
  readResult : Except String Unit
  loadResult : Except String (List (ℚ × ℚ))
  fontLoadOk : Bool
  saveResult : Except String ℕ
  rand : ℕ → ℚ

/-- The observable outcome of one `addWatermarkToPDF` run: the trace of
draw calls, the `saveAs` downloads (filename, bytes) that were triggered,
and the value returned / error thrown. -/
structure RunResult where
  draws : List DrawCall
  downloads : List (String × ℕ)
  ret : Except String RetVal

/-- The orchestrator `addWatermarkToPDF(file, watermarkOptions)`: normalize options, read
the file, load the document, try the simhei font (falling back to
Helvetica-Bold and substituting `'CONFIDENTIAL'` for CJK text on
failure), parse the color once, stamp every generated position on every
page (plus the fixed test stamp per page when on the fallback font), save,
download as `watermarked_<name>`, and return `true`.  Any read/load/save
failure propagates out through the surrounding `try`/`catch` with no
download. -/
def addWatermarkToPDF (env : Env) (watermarkOptions : RawOptions) : RunResult :=
  let options := normalizeOptions watermarkOptions
  match env.readResult with
  | .error e => ⟨[], [], .error e⟩
  | .ok _ =>
    match env.loadResult with
    | .error e => ⟨[], [], .error e⟩
    | .ok pages =>
      let useChineseFont := env.fontLoadOk
      let font := if useChineseFont then Font.simhei else Font.helveticaBold
      let text :=
        if useChineseFont then options.text
        else if containsCJK options.text then ("CONFIDENTIAL") else options.text
      let watermarkColor := parseColor options.color
      let draws := pages.enum.flatMap fun pg =>
        let positions := generateWatermarkPositions pg.2.1 pg.2.2
          (options.fontSize : ℚ) options.density (fun n => env.rand (45 * pg.1 + n))
        (positions.map fun p =>
          ⟨pg.1, text, p.x, p.y, p.size, font, options.opacity, watermarkColor,
           options.rotation, false⟩) ++
        (if useChineseFont then [] else
          [⟨pg.1, ("TEST WATERMARK"), pg.2.1 - 200, pg.2.2 - 50, 20,
            Font.helveticaBold, .num 1, (.num 1, .num 0, .num 0), 0, true⟩])
      match env.saveResult with
      | .error e => ⟨draws, [], .error e⟩
      | .ok bytes =>
        ⟨draws, [(("watermarked_") ++ env.fileName, bytes)], .ok RetVal.retTrue⟩


/-! ## Predicates and concrete instances used by the claim theorems -/

/-- The property claimed by "duplicate exclusion" over a whole position
list: no two positions at distinct indices are closer than 50 units on
both axes simultaneously. -/
def pairwiseSeparated (ps : List Pos) : Prop :=
  ∀ i j (hi : i < ps.length) (hj : j < ps.length), i ≠ j →
    ¬(|(ps.get ⟨i, hi⟩).x - (ps.get ⟨j, hj⟩).x| < 50 ∧
      |(ps.get ⟨i, hi⟩).y - (ps.get ⟨j, hj⟩).y| < 50)

/-- Positions at index `n` and beyond are separated (by at least 50 units
on at least one axis) from every position earlier in the list. -/
def sepFrom (n : ℕ) (ps : List Pos) : Prop :=
  ∀ i j (hi : i < ps.length) (hj : j < ps.length), i < j → n ≤ j →
    ¬(|(ps.get ⟨i, hi⟩).x - (ps.get ⟨j, hj⟩).x| < 50 ∧
      |(ps.get ⟨i, hi⟩).y - (ps.get ⟨j, hj⟩).y| < 50)

/-- The `(x, y)` coordinates of a stamp, forgetting its size. -/
def pxy (p : Pos) : ℚ × ℚ := (p.x, p.y)

/-- A successful environment with one 600×800 page, used to witness the
fallback-font claim. -/
def envC8 : Env :=
  ⟨("a.pdf"), .ok (), .ok [(600, 800)], false, .ok 7, fun _ => 0⟩

/-- Raw options with empty text (so the CJK default applies), used to
witness the fallback-font claim. -/
def rawC8 : RawOptions :=
  ⟨"", "", .num (9 / 10), .num 50, .num 45, .num 1⟩

/-- A successful environment whose save step yields the bytes tag 42. -/
def envC9 : Env :=
  ⟨("doc.pdf"), .ok (), .ok [(600, 800)], true, .ok 42, fun _ => 0⟩

/-- Plain raw options for the return-value claims. -/
def rawC9 : RawOptions :=
  ⟨("DRAFT"), ("#FF0000"), .num (1 / 2), .num 40, .num 30, .num 1⟩

/-- An environment whose file read fails. -/
def envC10 : Env :=
  ⟨("doc.pdf"), .error ("read failed"), .ok [(600, 800)], true, .ok 42, fun _ => 0⟩

/-! ## Claim theorems -/

/-- C1: for every positive width, height and fontSize, with density = 1,
`generateWatermarkPositions` returns exactly the five base stamps — the
center at `(width/2, height/2)` with size `fontSize × 1.5` followed by the
four corner stamps of size `fontSize` at `(100, height−100)`,
`(width−100, height−100)`, `(100, 100)` and `(width−100, 100)`, in that
order — for any state of the random stream. -/
theorem generateWatermarkPositions_density_one (w h fs : ℚ) (rand : ℕ → ℚ)
    (_hw : 0 < w) (_hh : 0 < h) (_hf : 0 < fs) :
    generateWatermarkPositions w h fs 1 rand =
      [⟨w / 2, h / 2, fs * (3 / 2)⟩, ⟨100, h - 100, fs⟩,
       ⟨w - 100, h - 100, fs⟩, ⟨100, 100, fs⟩, ⟨w - 100, 100, fs⟩] := rfl

/-- Witness for C1 at width 600, height 800, fontSize 50. -/
theorem generateWatermarkPositions_density_one_witness :
    (0 : ℚ) < 600 ∧ (0 : ℚ) < 800 ∧ (0 : ℚ) < 50 ∧
    generateWatermarkPositions 600 800 50 1 (fun _ => 0) =
      [⟨600 / 2, 800 / 2, 50 * (3 / 2)⟩, ⟨100, 800 - 100, 50⟩,
       ⟨600 - 100, 800 - 100, 50⟩, ⟨100, 100, 50⟩, ⟨600 - 100, 100, 50⟩] :=
  ⟨by norm_num, by norm_num, by norm_num,
   generateWatermarkPositions_density_one 600 800 50 (fun _ => 0)
     (by norm_num) (by norm_num) (by norm_num)⟩

/-- Appending a candidate through the duplicate check preserves the
separation invariant and the length bound. -/
theorem sepFrom_addIfNotDup (n : ℕ) (ps : List Pos) (x y s : ℚ)
    (hsep : sepFrom n ps) (hlen : n ≤ ps.length) :
    sepFrom n (addIfNotDup ps x y s) ∧ n ≤ (addIfNotDup ps x y s).length := by
  unfold addIfNotDup
  split
  · exact ⟨hsep, hlen⟩
  · next hdup =>
    refine ⟨?_, by simp; omega⟩
    intro i j hi hj hij hnj
    have hj' : j < ps.length + 1 := by simpa using hj
    simp only [List.get_eq_getElem] at *
    by_cases hjl : j < ps.length
    · have hi' : i < ps.length := lt_trans hij hjl
      rw [List.getElem_append_left hi', List.getElem_append_left hjl]
      exact hsep i j hi' hjl hij hnj
    · have hjeq : j = ps.length := by omega
      have hi' : i < ps.length := by omega
      rw [List.getElem_append_left hi']
      subst hjeq
      rw [List.getElem_concat_length _ _ _ rfl]
      intro hcl
      exact hdup ⟨ps[i], List.getElem_mem hi', hcl⟩

/-- Folding a whole candidate list through the duplicate check preserves
the separation invariant and the length bound. -/
theorem sepFrom_addAll (n : ℕ) (fs : ℚ) :
    ∀ (cands : List (ℚ × ℚ)) (ps : List Pos), sepFrom n ps → n ≤ ps.length →
      sepFrom n (addAll fs ps cands) ∧ n ≤ (addAll fs ps cands).length := by
  intro cands
  induction cands with
  | nil => intro ps h1 h2; exact ⟨h1, h2⟩
  | cons c t ih =>
    intro ps h1 h2
    have h' := sepFrom_addIfNotDup n ps c.1 c.2 fs h1 h2
    simpa [addAll] using ih _ h'.1 h'.2

/-- C2 (amended): in the non-random output of
`generateWatermarkPositions`, every position appended by the grid or
diagonal layers (index ≥ 5) is at least 50 units away on at least one
axis from every position earlier in the list; the five base stamps
themselves are pushed without any duplicate check. -/
theorem nonRandomPositions_added_separated (w h fs : ℚ) (density : ℤ)
    (i j : ℕ) (hi : i < (nonRandomPositions w h fs density).length)
    (hj : j < (nonRandomPositions w h fs density).length)
    (hij : i < j) (hjadd : 5 ≤ j) :
    ¬(|((nonRandomPositions w h fs density).get ⟨i, hi⟩).x -
        ((nonRandomPositions w h fs density).get ⟨j, hj⟩).x| < 50 ∧
      |((nonRandomPositions w h fs density).get ⟨i, hi⟩).y -
        ((nonRandomPositions w h fs density).get ⟨j, hj⟩).y| < 50) := by
  have hbase : sepFrom 5 (basePositions w h fs) := by
    intro i' j' hi' hj' hij' hnj'
    simp only [basePositions, List.length_cons, List.length_nil] at hj'
    omega
  have hbl : 5 ≤ (basePositions w h fs).length := by simp [basePositions]
  have hmain : sepFrom 5 (nonRandomPositions w h fs density) := by
    unfold nonRandomPositions
    by_cases h1 : 1 < density <;> by_cases h2 : 4 ≤ density <;>
      simp only [h1, h2, if_true, if_false]
    · exact (sepFrom_addAll 5 fs _ _
        ((sepFrom_addAll 5 fs _ _
          ((sepFrom_addAll 5 fs _ _ hbase hbl).1)
          ((sepFrom_addAll 5 fs _ _ hbase hbl).2)).1)
        ((sepFrom_addAll 5 fs _ _
          ((sepFrom_addAll 5 fs _ _ hbase hbl).1)
          ((sepFrom_addAll 5 fs _ _ hbase hbl).2)).2)).1
    · exact (sepFrom_addAll 5 fs _ _ hbase hbl).1
    · exact (sepFrom_addAll 5 fs _ _
        ((sepFrom_addAll 5 fs _ _ hbase hbl).1)
        ((sepFrom_addAll 5 fs _ _ hbase hbl).2)).1
    · exact hbase
  exact hmain i j hi hj hij hjadd

/-- Witness for the amended C2 at width 600, height 800, fontSize 50,
density 2, indices 0 (the center stamp) and 5 (the first grid stamp). -/
theorem nonRandomPositions_added_separated_witness :
    ¬(|((nonRandomPositions 600 800 50 2).get
          ⟨0, of_decide_eq_true (by with_unfolding_all rfl)⟩).x -
        ((nonRandomPositions 600 800 50 2).get
          ⟨5, of_decide_eq_true (by with_unfolding_all rfl)⟩).x| < 50 ∧
      |((nonRandomPositions 600 800 50 2).get
          ⟨0, of_decide_eq_true (by with_unfolding_all rfl)⟩).y -
        ((nonRandomPositions 600 800 50 2).get
          ⟨5, of_decide_eq_true (by with_unfolding_all rfl)⟩).y| < 50) :=
  nonRandomPositions_added_separated 600 800 50 2 0 5 _ _
    (by decide) (by decide)

/-- C2 (counterexample): the claim as stated — with the base center and
corner stamps included — fails: on a 150×150 page at density 1 the center
stamp (75, 75) and the top-left corner stamp (100, 50) differ by 25 units
on both axes. -/
theorem nonRandomPositions_not_pairwiseSeparated :
    ¬ pairwiseSeparated (nonRandomPositions 150 150 10 1) := fun hsep =>
  hsep 0 1 (of_decide_eq_true (by with_unfolding_all rfl))
    (of_decide_eq_true (by with_unfolding_all rfl))
    (by decide)
    (of_decide_eq_true (by with_unfolding_all rfl))

/-- Coordinate-wise equality of accumulated positions is preserved by the
duplicate test (which only inspects coordinates). -/
theorem isDup_iff_of_map_eq {ps qs : List Pos}
    (h : ps.map pxy = qs.map pxy) (x y : ℚ) :
    isDup ps x y ↔ isDup qs x y := by
  unfold isDup
  constructor
  · rintro ⟨p, hp, hcl⟩
    have hmem : pxy p ∈ qs.map pxy := h ▸ List.mem_map_of_mem pxy hp
    obtain ⟨q, hq, hqe⟩ := List.mem_map.1 hmem
    obtain ⟨hx, hy⟩ : q.x = p.x ∧ q.y = p.y := by
      simpa [pxy, Prod.ext_iff] using hqe
    exact ⟨q, hq, by rw [hx, hy]; exact hcl⟩
  · rintro ⟨q, hq, hcl⟩
    have hmem : pxy q ∈ ps.map pxy := h.symm ▸ List.mem_map_of_mem pxy hq
    obtain ⟨p, hp, hpe⟩ := List.mem_map.1 hmem
    obtain ⟨hx, hy⟩ : p.x = q.x ∧ p.y = q.y := by
      simpa [pxy, Prod.ext_iff] using hpe
    exact ⟨p, hp, by rw [hx, hy]; exact hcl⟩

/-- The step `addIfNotDup` only looks at coordinates, so coordinate-wise equal
accumulators stay coordinate-wise equal whatever sizes are pushed. -/
theorem addIfNotDup_map_eq {ps qs : List Pos}
    (h : ps.map pxy = qs.map pxy) (x y s s' : ℚ) :
    (addIfNotDup ps x y s).map pxy = (addIfNotDup qs x y s').map pxy := by
  unfold addIfNotDup
  by_cases hd : isDup ps x y
  · rw [if_pos hd, if_pos ((isDup_iff_of_map_eq h x y).1 hd)]
    exact h
  · rw [if_neg hd, if_neg (fun hq => hd ((isDup_iff_of_map_eq h x y).2 hq))]
    simp [h, pxy]

/-- Folding the same candidates over coordinate-wise equal accumulators
(with possibly different stamp sizes) keeps them coordinate-wise equal. -/
theorem addAll_map_eq (fs fs' : ℚ) :
    ∀ (cands : List (ℚ × ℚ)) (ps qs : List Pos),
      ps.map pxy = qs.map pxy →
      (addAll fs ps cands).map pxy = (addAll fs' qs cands).map pxy := by
  intro cands
  induction cands with
  | nil => intro ps qs h; exact h
  | cons c t ih =>
    intro ps qs h
    simpa [addAll] using ih _ _ (addIfNotDup_map_eq h c.1 c.2 fs fs')

/-- The coordinates of the non-random positions do not depend on the
font size (only the stamp sizes do). -/
theorem nonRandomPositions_map_pxy (w h : ℚ) (fs fs' : ℚ) (density : ℤ) :
    (nonRandomPositions w h fs density).map pxy =
      (nonRandomPositions w h fs' density).map pxy := by
  have hbase : (basePositions w h fs).map pxy = (basePositions w h fs').map pxy := by
    simp [basePositions, pxy]
  unfold nonRandomPositions
  by_cases h1 : 1 < density <;> by_cases h2 : 4 ≤ density <;>
    simp only [h1, h2, if_true, if_false]
  · exact addAll_map_eq fs fs' _ _ _ (addAll_map_eq fs fs' _ _ _
      (addAll_map_eq fs fs' _ _ _ hbase))
  · exact addAll_map_eq fs fs' _ _ _ hbase
  · exact addAll_map_eq fs fs' _ _ _ (addAll_map_eq fs fs' _ _ _ hbase)
  · exact hbase

/-- The count of non-random positions does not depend on the font size. -/
theorem nonRandomPositions_length_fsIndep (w h : ℚ) (fs fs' : ℚ) (density : ℤ) :
    (nonRandomPositions w h fs density).length =
      (nonRandomPositions w h fs' density).length := by
  have := congrArg List.length (nonRandomPositions_map_pxy w h fs fs' density)
  simpa using this

/-- C3 (amended): at the standard 600×800 page geometry the non-random
position count is monotone over the densities the claim compares, for
every fontSize: count(density=2) = 29 ≤ count(density=3) = 49 <
count(density=4) = 81.  (The claimed monotonicity does not hold for all
page sizes, see the counterexample.) -/
theorem nonRandomPositions_count_monotone_600x800 (fs : ℚ) :
    (nonRandomPositions 600 800 fs 2).length ≤
      (nonRandomPositions 600 800 fs 3).length ∧
    (nonRandomPositions 600 800 fs 3).length <
      (nonRandomPositions 600 800 fs 4).length := by
  rw [nonRandomPositions_length_fsIndep 600 800 fs 1 2,
      nonRandomPositions_length_fsIndep 600 800 fs 1 3,
      nonRandomPositions_length_fsIndep 600 800 fs 1 4]
  exact ⟨of_decide_eq_true (by with_unfolding_all rfl),
         of_decide_eq_true (by with_unfolding_all rfl)⟩

/-- C3 (counterexample): on a 300×300 page with fontSize 50 the density-4
run produces strictly fewer non-random positions (25) than the density-3
run (49): the tighter density-4 grid and the diagonals are almost entirely
eaten by the 50-unit duplicate exclusion, so the claimed
`count(3) < count(4)` fails. -/
theorem nonRandomPositions_count_drop_300x300 :
    (nonRandomPositions 300 300 50 4).length <
      (nonRandomPositions 300 300 50 3).length :=
  of_decide_eq_true (by with_unfolding_all rfl)

/-- Whatever enters the final clamp, a finite output channel lies in
`[0,1]`. -/
theorem clampJS_num_bounds {x : JSNum} {q : ℚ} (h : clampJS x = JSNum.num q) :
    0 ≤ q ∧ q ≤ 1 := by
  cases x with
  | nan => simp [clampJS] at h
  | inf =>
    simp only [clampJS, JSNum.num.injEq] at h
    subst h; norm_num
  | negInf =>
    simp only [clampJS, JSNum.num.injEq] at h
    subst h; norm_num
  | num r =>
    simp only [clampJS, JSNum.num.injEq] at h
    subst h
    unfold jsMax jsMin
    split_ifs <;> constructor <;> linarith

/-- The clamp is the identity on values already in `[0,1]`. -/
theorem clampJS_of_bounds {q : ℚ} (h0 : 0 ≤ q) (h1 : q ≤ 1) :
    clampJS (JSNum.num q) = JSNum.num q := by
  simp only [clampJS, jsMax, jsMin, JSNum.num.injEq]
  split_ifs <;> linarith

/-- C4 (amended): `parseColor` always returns (the embedded parser is
total; the `try`/`catch` keeps any parse failure local), and every
channel that is a finite number lies in `[0,1]` because all three
channels pass through the final clamp; in particular
`parseColor("2,-1,0.5") = (1, 0, 0.5)`.  (A channel can still be NaN —
see the counterexample — because the clamp propagates NaN.) -/
theorem parseColor_finite_channels_clamped :
    (∀ (s : String) (q : ℚ),
      ((parseColor s).1 = JSNum.num q → 0 ≤ q ∧ q ≤ 1) ∧
      ((parseColor s).2.1 = JSNum.num q → 0 ≤ q ∧ q ≤ 1) ∧
      ((parseColor s).2.2 = JSNum.num q → 0 ≤ q ∧ q ≤ 1)) ∧
    parseColor ("2,-1,0.5") = (JSNum.num 1, JSNum.num 0, JSNum.num (1 / 2)) := by
  refine ⟨fun s q => ⟨fun h => ?_, fun h => ?_, fun h => ?_⟩, ?_⟩
  · exact clampJS_num_bounds (x := (parseColorRawList s.data).1) h
  · exact clampJS_num_bounds (x := (parseColorRawList s.data).2.1) h
  · exact clampJS_num_bounds (x := (parseColorRawList s.data).2.2) h
  · exact of_decide_eq_true (by with_unfolding_all rfl)

/-- Witness for C4 (amended) at the input `"#fff"`, whose red channel is
the finite number 1. -/
theorem parseColor_finite_channels_clamped_witness :
    (parseColor ("#fff")).1 = JSNum.num 1 ∧ (0 ≤ (1 : ℚ) ∧ (1 : ℚ) ≤ 1) :=
  ⟨of_decide_eq_true (by with_unfolding_all rfl),
   (parseColor_finite_channels_clamped.1 ("#fff") 1).1
     (of_decide_eq_true (by with_unfolding_all rfl))⟩

/-- C4 (counterexample): the claim "each channel lies in [0,1] for every
input string" fails: `"#0z0"` takes the hex path, `parseInt('zz', 16)` is
NaN, and the final clamp propagates NaN, so the green channel of the
result is NaN rather than a number in `[0,1]` (and the `rgb` collaborator
receiving it would throw its range assertion rather than return). -/
theorem parseColor_nan_channel :
    parseColor ("#0z0") = (JSNum.num 0, JSNum.nan, JSNum.num 0) :=
  of_decide_eq_true (by with_unfolding_all rfl)

/-- Code-point facts about a valid hex digit: its range and the bound on
its value. -/
theorem hexDigitVal_toNat_facts {c : Char} {v : ℕ} (h : hexDigitVal c = some v) :
    ((48 ≤ c.toNat ∧ c.toNat ≤ 57) ∨ (97 ≤ c.toNat ∧ c.toNat ≤ 102) ∨
      (65 ≤ c.toNat ∧ c.toNat ≤ 70)) ∧ v ≤ 15 := by
  unfold hexDigitVal at h
  split_ifs at h with h1 h2 h3
  · injection h with hv; exact ⟨Or.inl h1, by omega⟩
  · injection h with hv; exact ⟨Or.inr (Or.inl h2), by omega⟩
  · injection h with hv; exact ⟨Or.inr (Or.inr h3), by omega⟩

/-- Characters with different code points are different. -/
theorem char_ne_of_toNat_ne {c d : Char} (h : c.toNat ≠ d.toNat) : c ≠ d :=
  fun e => h (congrArg Char.toNat e)

/-- A valid hex digit is not whitespace, a sign, an `x`/`X`, or `0`-prefix
material that would divert the `parseInt(·, 16)` scanner. -/
theorem hexDigit_not_special {c : Char} {v : ℕ} (h : hexDigitVal c = some v) :
    jsWhitespace c = false ∧ c ≠ '+' ∧ c ≠ '-' ∧ c ≠ 'x' ∧ c ≠ 'X' := by
  obtain ⟨hr, _⟩ := hexDigitVal_toNat_facts h
  refine ⟨?_, char_ne_of_toNat_ne ?_, char_ne_of_toNat_ne ?_,
    char_ne_of_toNat_ne ?_, char_ne_of_toNat_ne ?_⟩
  · simp only [jsWhitespace, decide_eq_false_iff_not]
    omega
  · have hc : ('+').toNat = 43 := rfl
    omega
  · have hc : ('-').toNat = 45 := rfl
    omega
  · have hc : ('x').toNat = 120 := rfl
    omega
  · have hc : ('X').toNat = 88 := rfl
    omega

/-- Evaluating `parseInt(s, 16)` on a two-character string of valid hex digits is the
place value of the two digits. -/
theorem parseIntHexList_pair {a b : Char} {va vb : ℕ}
    (ha : hexDigitVal a = some va) (hb : hexDigitVal b = some vb) :
    parseIntHexList [a, b] = some ((va * 16 + vb : ℕ) : ℤ) := by
  obtain ⟨hwa, hpa, hma, _, _⟩ := hexDigit_not_special ha
  obtain ⟨hwb, _, _, hxb, hXb⟩ := hexDigit_not_special hb
  unfold parseIntHexList splitSign strip0x
  simp only [List.dropWhile_cons, hwa, Bool.false_eq_true, if_false, hpa, hma,
    hxb, hXb, ite_false, false_and, and_false, false_or, or_self,
    takeDigits, ha, hb]
  norm_num

/-- One channel of the hex path: `parseInt(pair, 16) / 255` for two valid
hex digits. -/
theorem hexPairChannel_eq {a b : Char} {va vb : ℕ}
    (ha : hexDigitVal a = some va) (hb : hexDigitVal b = some vb) :
    hexPairChannel a b = JSNum.num (((va * 16 + vb : ℕ) : ℚ) / 255) := by
  unfold hexPairChannel
  rw [parseIntHexList_pair ha hb]
  norm_num

/-- The hex channel value of two digits lies in `[0,1]`, so the final
clamp keeps it. -/
theorem clamp_hexChannel {va vb : ℕ} (hva : va ≤ 15) (hvb : vb ≤ 15) :
    clampJS (JSNum.num (((va * 16 + vb : ℕ) : ℚ) / 255)) =
      JSNum.num (((va * 16 + vb : ℕ) : ℚ) / 255) := by
  apply clampJS_of_bounds
  · positivity
  · rw [div_le_one (by norm_num)]
    exact_mod_cast (by omega : (va * 16 + vb : ℕ) ≤ 255)

/-- C5: for every 6-digit hex string `#RRGGBB` (valid hex digit
characters), `parseColor` returns the triple
`(hexToInt(RR)/255, hexToInt(GG)/255, hexToInt(BB)/255)`; every 3-digit
shorthand `#rgb` parses exactly as its doubled expansion `#rrggbb`; and
`parseColor("#F00") = parseColor("#FF0000") = (1,0,0)`,
`parseColor("#808080") = (128/255, 128/255, 128/255)`. -/
theorem parseColor_hex_correct :
    (∀ (c1 c2 c3 c4 c5 c6 : Char) (v1 v2 v3 v4 v5 v6 : ℕ),
      hexDigitVal c1 = some v1 → hexDigitVal c2 = some v2 →
      hexDigitVal c3 = some v3 → hexDigitVal c4 = some v4 →
      hexDigitVal c5 = some v5 → hexDigitVal c6 = some v6 →
      parseColor (String.mk ('#' :: [c1, c2, c3, c4, c5, c6])) =
        (JSNum.num (((v1 * 16 + v2 : ℕ) : ℚ) / 255),
         JSNum.num (((v3 * 16 + v4 : ℕ) : ℚ) / 255),
         JSNum.num (((v5 * 16 + v6 : ℕ) : ℚ) / 255))) ∧
    (∀ a b c : Char,
      parseColor (String.mk ('#' :: [a, b, c])) =
        parseColor (String.mk ('#' :: [a, a, b, b, c, c]))) ∧
    parseColor ("#F00") = (JSNum.num 1, JSNum.num 0, JSNum.num 0) ∧
    parseColor ("#FF0000") = (JSNum.num 1, JSNum.num 0, JSNum.num 0) ∧
    parseColor ("#808080") =
      (JSNum.num (128 / 255), JSNum.num (128 / 255), JSNum.num (128 / 255)) := by
  refine ⟨?_, fun a b c => rfl, ?_, ?_, ?_⟩
  · intro c1 c2 c3 c4 c5 c6 v1 v2 v3 v4 v5 v6 h1 h2 h3 h4 h5 h6
    have hred : parseColor (String.mk ('#' :: [c1, c2, c3, c4, c5, c6])) =
        (clampJS (hexPairChannel c1 c2), clampJS (hexPairChannel c3 c4),
         clampJS (hexPairChannel c5 c6)) := rfl
    rw [hred, hexPairChannel_eq h1 h2, hexPairChannel_eq h3 h4,
      hexPairChannel_eq h5 h6,
      clamp_hexChannel (hexDigitVal_toNat_facts h1).2 (hexDigitVal_toNat_facts h2).2,
      clamp_hexChannel (hexDigitVal_toNat_facts h3).2 (hexDigitVal_toNat_facts h4).2,
      clamp_hexChannel (hexDigitVal_toNat_facts h5).2 (hexDigitVal_toNat_facts h6).2]
  · exact of_decide_eq_true (by with_unfolding_all rfl)
  · exact of_decide_eq_true (by with_unfolding_all rfl)
  · exact of_decide_eq_true (by with_unfolding_all rfl)

/-- Witness for C5 at `#808080` written digit by digit. -/
theorem parseColor_hex_correct_witness :
    parseColor (String.mk ('#' :: ['8', '0', '8', '0', '8', '0'])) =
      (JSNum.num (((8 * 16 + 0 : ℕ) : ℚ) / 255),
       JSNum.num (((8 * 16 + 0 : ℕ) : ℚ) / 255),
       JSNum.num (((8 * 16 + 0 : ℕ) : ℚ) / 255)) :=
  parseColor_hex_correct.1 '8' '0' '8' '0' '8' '0' 8 0 8 0 8 0
    rfl rfl rfl rfl rfl rfl

/-- C6: `parseColor` degrades to black (0,0,0), with no error reaching
the caller (the embedded parser is total), in the invalid cases: a `#`
input whose remainder has length other than 3 or 6, and a non-`#` input
that splits on `,` into fewer than 3 tokens or contains a token that is
not a number; in particular `parseColor("not-a-color")`,
`parseColor("#12")` and `parseColor("1,2")` all return (0,0,0). -/
theorem parseColor_invalid_black :
    (∀ s : String, s.data.head? = some ('#') →
      (s.data.drop 1).length ≠ 3 → (s.data.drop 1).length ≠ 6 →
      parseColor s = (JSNum.num 0, JSNum.num 0, JSNum.num 0)) ∧
    (∀ s : String, s.data.head? ≠ some ('#') →
      ((splitOnComma s.data).length < 3 ∨
        ∃ t ∈ splitOnComma s.data, toNumberList t = JSNum.nan) →
      parseColor s = (JSNum.num 0, JSNum.num 0, JSNum.num 0)) ∧
    parseColor ("not-a-color") = (JSNum.num 0, JSNum.num 0, JSNum.num 0) ∧
    parseColor ("#12") = (JSNum.num 0, JSNum.num 0, JSNum.num 0) ∧
    parseColor ("1,2") = (JSNum.num 0, JSNum.num 0, JSNum.num 0) := by
  refine ⟨?_, ?_, ?_, ?_, ?_⟩
  · intro s hh h3 h6
    have hred : parseColor s =
        (clampJS (parseColorRawList s.data).1,
         clampJS (parseColorRawList s.data).2.1,
         clampJS (parseColorRawList s.data).2.2) := rfl
    rw [hred]
    simp only [parseColorRawList]
    rw [if_pos hh, if_neg h3, if_neg h6]
    rfl
  · intro s hh hbad
    have hred : parseColor s =
        (clampJS (parseColorRawList s.data).1,
         clampJS (parseColorRawList s.data).2.1,
         clampJS (parseColorRawList s.data).2.2) := rfl
    rw [hred]
    simp only [parseColorRawList]
    rw [if_neg hh, if_neg (fun hcond => ?_)]
    · rfl
    · rcases hbad with hlen | ⟨t, ht, hnan⟩
      · rw [List.length_map] at hcond
        omega
      · exact hcond.2 ⟨toNumberList t, List.mem_map_of_mem toNumberList ht, hnan⟩
  · exact of_decide_eq_true (by with_unfolding_all rfl)
  · exact of_decide_eq_true (by with_unfolding_all rfl)
  · exact of_decide_eq_true (by with_unfolding_all rfl)

/-- Witness for C6: a 9-digit hex remainder and a 2-token RGB input both
fall back to black. -/
theorem parseColor_invalid_black_witness :
    parseColor ("#999999999") = (JSNum.num 0, JSNum.num 0, JSNum.num 0) ∧
    parseColor ("9,9") = (JSNum.num 0, JSNum.num 0, JSNum.num 0) :=
  ⟨parseColor_invalid_black.1 ("#999999999") rfl (by decide) (by decide),
   parseColor_invalid_black.2.1 ("9,9") (by decide) (Or.inl (by decide))⟩

/-- Truncation: `parseInt` of an integer-valued number is that integer. -/
theorem jsTrunc_intCast (z : ℤ) : jsTrunc (z : ℚ) = z := by
  unfold jsTrunc
  split_ifs
  · exact_mod_cast Int.floor_intCast z
  · exact_mod_cast Int.ceil_intCast z

/-- C7 (amended): normalization substitutes the defaults exactly as in
the claim's example — `{opacity: "abc", fontSize: null,
rotation: undefined, density: "x"}` yields opacity 0.5, fontSize 50,
rotation −45, density 3 — and preserves provided valid values as long as
they are not the falsy number 0: opacity in (0,1], positive integer
fontSize, nonzero integer rotation, density in [1,5].  (A provided 0 for
opacity or rotation is falsy under `|| default` and is replaced by the
default; see the counterexample.) -/
theorem normalizeOptions_defaults_and_preserves :
    (normalizeOptions ⟨"t", "#000000", .str ("abc"), .null, .undefined, .str ("x")⟩ =
      ⟨"t", "#000000", .num (1 / 2), 50, -45, 3⟩) ∧
    (∀ (raw : RawOptions) (q : ℚ), raw.opacity = .num q → 0 < q → q ≤ 1 →
      (normalizeOptions raw).opacity = .num q) ∧
    (∀ (raw : RawOptions) (n : ℤ), raw.fontSize = .num (n : ℚ) → 0 < n →
      (normalizeOptions raw).fontSize = n) ∧
    (∀ (raw : RawOptions) (z : ℤ), raw.rotation = .num (z : ℚ) → z ≠ 0 →
      (normalizeOptions raw).rotation = z) ∧
    (∀ (raw : RawOptions) (d : ℤ), raw.density = .num (d : ℚ) → 1 ≤ d → d ≤ 5 →
      (normalizeOptions raw).density = d) := by
  refine ⟨of_decide_eq_true (by with_unfolding_all rfl), ?_, ?_, ?_, ?_⟩
  · intro raw q hres h0 h1
    simp only [normalizeOptions, hres, jsParseFloatVal, jsOrNum]
    rw [if_neg (by linarith)]
  · intro raw n hres h0
    simp only [normalizeOptions, hres, jsParseIntVal, jsOrInt, jsTrunc_intCast]
    rw [if_neg (by omega)]
  · intro raw z hres h0
    simp only [normalizeOptions, hres, jsParseIntVal, jsOrInt, jsTrunc_intCast]
    rw [if_neg h0]
  · intro raw d hres h1 h5
    simp only [normalizeOptions, hres, jsParseIntVal, jsOrInt, jsTrunc_intCast]
    rw [if_neg (by omega)]

/-- Witness for C7 (amended): the defaults example plus preserved valid
values opacity 0.9, fontSize 50, rotation 30, density 2. -/
theorem normalizeOptions_defaults_and_preserves_witness :
    (normalizeOptions ⟨"t", "#000000", .str ("abc"), .null, .undefined, .str ("x")⟩ =
      ⟨"t", "#000000", .num (1 / 2), 50, -45, 3⟩) ∧
    (normalizeOptions ⟨"t", "#000000", .num (9 / 10), .num 50, .num 30, .num 2⟩).opacity
      = .num (9 / 10) ∧
    (normalizeOptions ⟨"t", "#000000", .num (9 / 10), .num 50, .num 30, .num 2⟩).fontSize
      = 50 ∧
    (normalizeOptions ⟨"t", "#000000", .num (9 / 10), .num 50, .num 30, .num 2⟩).rotation
      = 30 ∧
    (normalizeOptions ⟨"t", "#000000", .num (9 / 10), .num 50, .num 30, .num 2⟩).density
      = 2 :=
  ⟨normalizeOptions_defaults_and_preserves.1,
   normalizeOptions_defaults_and_preserves.2.1 _ (9 / 10) rfl (by norm_num) (by norm_num),
   normalizeOptions_defaults_and_preserves.2.2.1 _ 50 (by norm_num) (by norm_num),
   normalizeOptions_defaults_and_preserves.2.2.2.1 _ 30 (by norm_num) (by norm_num),
   normalizeOptions_defaults_and_preserves.2.2.2.2 _ 2 (by norm_num) (by norm_num) (by norm_num)⟩

/-- C7 (counterexample): a provided rotation of 0 — a valid signed
integer per the claimed domain — is not preserved: `parseInt(0) || -45`
evaluates to −45 because 0 is falsy. -/
theorem normalizeOptions_drops_zero_rotation :
    (normalizeOptions ⟨"t", "#000000", .num (9 / 10), .num 50, .num 0, .num 3⟩).rotation
      = -45 ∧ (-45 : ℤ) ≠ 0 :=
  ⟨of_decide_eq_true (by with_unfolding_all rfl), by decide⟩

/-- C8: when the preferred (CJK-capable) font fails to load, the
orchestrator does not abort: every draw call uses the embedded
Helvetica-Bold fallback, and if the watermark text contains CJK
ideographs every watermark stamp (on every page, at every generated
position) is drawn with the fixed placeholder `"CONFIDENTIAL"`; if the
remaining steps succeed the run still completes normally. -/
theorem addWatermark_fallback_substitution (env : Env) (raw : RawOptions)
    (hfont : env.fontLoadOk = false)
    (hcjk : containsCJK (normalizeOptions raw).text = true) :
    (∀ d ∈ (addWatermarkToPDF env raw).draws, d.font = Font.helveticaBold) ∧
    (∀ d ∈ (addWatermarkToPDF env raw).draws, d.isTest = false →
      d.text = ("CONFIDENTIAL")) ∧
    (∀ (pages : List (ℚ × ℚ)) (n : ℕ), env.readResult = .ok () →
      env.loadResult = .ok pages → env.saveResult = .ok n →
      (addWatermarkToPDF env raw).ret = .ok RetVal.retTrue) := by
  unfold addWatermarkToPDF
  rcases hR : env.readResult with e | u
  · exact ⟨by simp, by simp, fun pages n hr _ _ => by cases hr⟩
  · rcases hL : env.loadResult with e | pages
    · exact ⟨by simp, by simp, fun pages n _ hl _ => by cases hl⟩
    · simp only [hfont, if_false, hcjk, if_true, Bool.false_eq_true]
      refine ⟨?_, ?_, ?_⟩
      · intro d hd
        rcases hS : env.saveResult with e | n <;>
          simp only [hS] at hd <;>
          · simp only [List.mem_flatMap, List.mem_append, List.mem_map,
              List.mem_singleton] at hd
            obtain ⟨pg, _, hin | hin⟩ := hd
            · obtain ⟨p, _, rfl⟩ := hin
              rfl
            · rw [hin]
      · intro d hd hnotest
        rcases hS : env.saveResult with e | n <;>
          simp only [hS] at hd <;>
          · simp only [List.mem_flatMap, List.mem_append, List.mem_map,
              List.mem_singleton] at hd
            obtain ⟨pg, _, hin | hin⟩ := hd
            · obtain ⟨p, _, rfl⟩ := hin
              rfl
            · rw [hin] at hnotest
              cases hnotest
      · intro pages' n _ hl hs
        cases hl
        rw [hs]

/-- Witness for C8: a failed font load with the default CJK text on one
600×800 page; the hypotheses are discharged concretely. -/
theorem addWatermark_fallback_substitution_witness :
    (∀ d ∈ (addWatermarkToPDF envC8 rawC8).draws, d.font = Font.helveticaBold) ∧
    (∀ d ∈ (addWatermarkToPDF envC8 rawC8).draws, d.isTest = false →
      d.text = ("CONFIDENTIAL")) ∧
    (∀ (pages : List (ℚ × ℚ)) (n : ℕ), envC8.readResult = .ok () →
      envC8.loadResult = .ok pages → envC8.saveResult = .ok n →
      (addWatermarkToPDF envC8 rawC8).ret = .ok RetVal.retTrue) :=
  addWatermark_fallback_substitution envC8 rawC8 rfl
    (of_decide_eq_true (by with_unfolding_all rfl))

/-- C9 (amended): on a successful run `addWatermarkToPDF` returns the
literal `true` (not the serialized bytes) and, as a side effect, triggers
exactly one download of the saved bytes under the name
`watermarked_<originalFilename>`. -/
theorem addWatermark_success_download (env : Env) (raw : RawOptions)
    (pages : List (ℚ × ℚ)) (n : ℕ)
    (hr : env.readResult = .ok ()) (hl : env.loadResult = .ok pages)
    (hs : env.saveResult = .ok n) :
    (addWatermarkToPDF env raw).ret = .ok RetVal.retTrue ∧
    (addWatermarkToPDF env raw).downloads =
      [(("watermarked_") ++ env.fileName, n)] := by
  unfold addWatermarkToPDF
  rw [hr, hl, hs]
  exact ⟨rfl, rfl⟩

/-- Witness for C9 (amended) on the concrete successful environment. -/
theorem addWatermark_success_download_witness :
    (addWatermarkToPDF envC9 rawC9).ret = .ok RetVal.retTrue ∧
    (addWatermarkToPDF envC9 rawC9).downloads =
      [(("watermarked_") ++ envC9.fileName, 42)] :=
  addWatermark_success_download envC9 rawC9 [(600, 800)] 42 rfl rfl rfl

/-- C9 (counterexample): the claim that the function returns the
serialized PDF bytes is false — on a successful run whose save step
produced the bytes tagged 42, the returned value is the boolean `true`,
which is not those bytes. -/
theorem addWatermark_returns_true_not_bytes :
    (addWatermarkToPDF envC9 rawC9).ret = Except.ok RetVal.retTrue ∧
    RetVal.retTrue ≠ RetVal.retBytes 42 :=
  ⟨rfl, by decide⟩

/-- C10: if the file read, the document load, or the save fails, the
whole operation surfaces a single error and the download collaborator is
never invoked. -/
theorem addWatermark_failure_no_download (env : Env) (raw : RawOptions)
    (hfail : (∃ e, env.readResult = Except.error e) ∨
      (∃ e, env.loadResult = Except.error e) ∨
      (∃ e, env.saveResult = Except.error e)) :
    (∃ e, (addWatermarkToPDF env raw).ret = Except.error e) ∧
    (addWatermarkToPDF env raw).downloads = [] := by
  unfold addWatermarkToPDF
  rcases hR : env.readResult with e | u
  · exact ⟨⟨e, rfl⟩, rfl⟩
  · rcases hL : env.loadResult with e | pages
    · exact ⟨⟨e, rfl⟩, rfl⟩
    · rcases hS : env.saveResult with e | n
      · exact ⟨⟨e, rfl⟩, rfl⟩
      · exfalso
        rcases hfail with ⟨e, he⟩ | ⟨e, he⟩ | ⟨e, he⟩ <;>
          simp_all
/-- Witness for C10: a run whose file read fails with `"read failed"`. -/
theorem addWatermark_failure_no_download_witness :
    (∃ e, (addWatermarkToPDF envC10 rawC9).ret = Except.error e) ∧
    (addWatermarkToPDF envC10 rawC9).downloads = [] :=
  addWatermark_failure_no_download envC10 rawC9 (Or.inl ⟨("read failed"), rfl⟩)
